import Mathlib

/-!
Verification of the BM-AI backend's ingestion-to-retrieval pipeline.

The Python sources are shallowly embedded: each Python function that a
claim touches becomes a Lean definition of the same name (module paths
become namespaces).  External capabilities (the LangChain text splitter's
string-splitting behaviour, the LLM, the QA chain, the embedding service,
uuid generation) are passed in as explicit function arguments, so the
embedded repository code stays exactly the code's own control flow.
-/

namespace BMAI

/-! ## Data model: workbooks (openpyxl), as consumed by `document_utils.py`

A scalar cell is `null` (Python `None`), a text cell (`str`), or any other
scalar (numbers, dates, booleans) carried with its Python `str(...)` text
form.  `extract_info_from_excel` checks `isinstance(cell, str)` before
marker matching, so only `Cell.str` cells can trigger; non-string scalars
participate in null-filtering and in content rendering only.
-/

inductive Cell where
  | null : Cell
  | str (s : String) : Cell
  | other (text : String) : Cell
deriving DecidableEq

abbrev Row := List Cell

/-- One worksheet, as the ordered row sequence `sheet.iter_rows(values_only=True)` yields. -/
abbrev Sheet := List Row

/-- A workbook: sheets in `wb.sheetnames` order. -/
abbrev Workbook := List Sheet

/-- Python `str(cell)` for the scalars a worksheet can hold. -/
def cellStr : Cell → String
  | .null => "None"
  | .str s => s
  | .other t => t

namespace DocumentUtils

/-- Substring containment on character lists: some suffix of `l` starts with `pat`. -/
def containsSub (pat : List Char) : List Char → Bool
  | [] => pat.isEmpty
  | c :: cs => pat.isPrefixOf (c :: cs) || containsSub pat cs

/-- Python `s.lower()`, as a character list (per-character lowercasing). -/
def pyLower (s : String) : List Char :=
  s.toList.map Char.toLower

/-- Python `"additional notes:" in s.lower()` (substring containment after lowercasing). -/
def containsMarker (s : String) : Bool :=
  containsSub "additional notes:".toList (pyLower s)

/-- The per-cell test of `document_utils.py:40`:
`cell and isinstance(cell, str) and "additional notes:" in cell.lower()`.
Only string cells can match (the truthiness test on `cell` is absorbed:
the marker is not a substring of the empty string). -/
def cellTriggers : Cell → Bool
  | .str s => containsMarker s
  | _ => false

/-- `any(... for cell in row)` over `cellTriggers`. -/
def rowTriggers (row : Row) : Bool :=
  row.any cellTriggers

/-- `[cell for cell in row if cell is not None]` (`document_utils.py:35`). -/
def filterRow (row : Row) : Row :=
  row.filter fun c => c ≠ Cell.null

/-- The body of the scan loop of `extract_info_from_excel` for one sheet,
carrying the `found` flag (`document_utils.py:29-41`). -/
def extractRowsAux : Bool → List Row → List Row
  | _, [] => []
  | true, r :: rs =>
    let filtered_row := filterRow r
    if filtered_row.isEmpty then extractRowsAux true rs
    else filtered_row :: extractRowsAux true rs
  | false, r :: rs =>
    if rowTriggers r then extractRowsAux true rs else extractRowsAux false rs

/-- `extract_info_from_excel` (`document_utils.py:13-43`): scan every sheet
with a fresh `found = False` flag, collecting into one list across sheets. -/
def extract_info_from_excel (wb : Workbook) : List Row :=
  wb.flatMap fun sheet => extractRowsAux false sheet

/-! ### Claim-side specification of the marker scan (C1)

The claim describes the scan as: locate the first trigger row of each
sheet; emit every strictly later row with nulls dropped, skipping rows
whose filtered form is empty; a sheet without a trigger contributes
nothing; concatenate sheets in workbook order.  (For a cell "treated as
text", only text cells can contain the marker: the text forms of the
non-string scalars a worksheet can hold — numbers, dates, booleans,
`None` — never contain the letters of `additional notes:`, so the trigger
test is stated on text cells.) -/

/-- Rows strictly after the first trigger row ([] when no row triggers). -/
def rowsAfterTrigger : List Row → List Row
  | [] => []
  | r :: rs => if rowTriggers r then rs else rowsAfterTrigger rs

/-- Null-filtered form of a row, `none` when nothing survives. -/
def keepRow (r : Row) : Option Row :=
  let filtered := filterRow r
  if filtered.isEmpty then none else some filtered

/-- The marker scan as the claim states it. -/
def markerScanSpec (wb : Workbook) : List Row :=
  wb.flatMap fun sheet => (rowsAfterTrigger sheet).filterMap keepRow

/-! ## Chunking engine (`document_utils.py:46-131`)

`RecursiveCharacterTextSplitter` is LangChain library code, not repository
code; it is embedded as a configuration record (the arguments the
repository passes to it) plus an arbitrary splitting behaviour
`Splitter`, passed as an explicit argument to every function that calls
`split_documents`.  LangChain's `split_documents` copies the source
document's metadata onto every chunk, which is the part the repository
relies on and the part modelled here. -/

structure SplitterConfig where
  chunk_size : Nat
  chunk_overlap : Nat
  separators : List String
deriving DecidableEq

/-- `get_default_text_splitter` (`document_utils.py:46-57`). -/
def get_default_text_splitter : SplitterConfig :=
  ⟨1000, 200, ["\n\n", "\n", " | ", " ", ""]⟩

/-- `get_entry_based_text_splitter` (`document_utils.py:60-72`). -/
def get_entry_based_text_splitter : SplitterConfig :=
  ⟨600, 50, ["\n\n", "\n", " | ", " ", ""]⟩

/-- `convert_extracted_data_to_content` (`document_utils.py:75-85`):
`"\n".join([" | ".join(map(str, row)) for row in extracted_data])`. -/
def convert_extracted_data_to_content (extracted_data : List Row) : String :=
  String.intercalate "\n"
    (extracted_data.map fun row => String.intercalate " | " (row.map cellStr))

/-- LangChain `Document` metadata as the repository builds it: the
`filename` and `source` keys plus the optional extra key/value pairs. -/
structure DocMetadata where
  filename : String
  source : String
  extra : List (String × String)
deriving DecidableEq

/-- LangChain `Document`. -/
structure Document where
  page_content : String
  metadata : DocMetadata
deriving DecidableEq

/-- `create_document_from_content` (`document_utils.py:88-110`). -/
def create_document_from_content (content filename source : String)
    (additional_metadata : List (String × String)) : Document :=
  ⟨content, ⟨filename, source, additional_metadata⟩⟩

/-- The external splitting behaviour: from a configuration and a content
string, the chunk contents. -/
abbrev Splitter := SplitterConfig → String → List String

/-- LangChain `split_documents`: split each document's content with the
configured splitter, copying its metadata onto every chunk. -/
def split_documents (split : Splitter) (cfg : SplitterConfig)
    (docs : List Document) : List Document :=
  docs.flatMap fun d => (split cfg d.page_content).map fun c => ⟨c, d.metadata⟩

/-- Python `content.split('\n')` over the character list (Python's
`str.split` on a one-character separator: the empty string yields one
empty piece, and pieces between consecutive separators are kept). -/
def splitOnChar (sep : Char) : List Char → List (List Char)
  | [] => [[]]
  | c :: cs =>
    let rest := splitOnChar sep cs
    if c = sep then [] :: rest
    else
      match rest with
      | [] => [[c]]
      | piece :: pieces => (c :: piece) :: pieces

/-- The line list `content.split('\n')` of `document_utils.py:124`. -/
def pySplitLines (content : String) : List (List Char) :=
  splitOnChar (Char.ofNat 10) content.toList

/-- `get_smart_text_splitter` (`document_utils.py:113-131`):
`avg_line_length = sum(len(line) for line in lines) / len(lines) if lines else 0`,
then the entry splitter when `len(lines) > 5 and avg_line_length < 150`. -/
def get_smart_text_splitter (content : String) : SplitterConfig :=
  let lines := pySplitLines content
  let avg_line_length : ℚ :=
    if lines.isEmpty then 0
    else ((lines.map List.length).sum : ℚ) / (lines.length : ℚ)
  if 5 < lines.length ∧ avg_line_length < 150 then get_entry_based_text_splitter
  else get_default_text_splitter

/-- `create_documents_from_extracted_data` (`document_utils.py:134-159`). -/
def create_documents_from_extracted_data (split : Splitter)
    (extracted_data : List Row) (filename source : String)
    (additional_metadata : List (String × String)) : List Document :=
  if extracted_data.isEmpty then []
  else
    let content := convert_extracted_data_to_content extracted_data
    let doc := create_document_from_content content filename source additional_metadata
    split_documents split (get_smart_text_splitter content) [doc]

/-- `create_documents_from_excel_sheets` (`document_utils.py:162-191`). -/
def create_documents_from_excel_sheets (split : Splitter)
    (extracted_data : List Row) (filename : String) : List Document :=
  let documents :=
    if extracted_data.isEmpty then []
    else [Document.mk (convert_extracted_data_to_content extracted_data)
            ⟨filename, "excel_extraction", []⟩]
  split_documents split get_default_text_splitter documents

/-- From the claim's words (C4): the Excel-sheets path as it would be if
its chunking strategy were selected from the content's own statistics,
i.e. with `get_smart_text_splitter` instead of the fixed default. -/
def create_documents_from_excel_sheets_smart (split : Splitter)
    (extracted_data : List Row) (filename : String) : List Document :=
  let documents :=
    if extracted_data.isEmpty then []
    else [Document.mk (convert_extracted_data_to_content extracted_data)
            ⟨filename, "excel_extraction", []⟩]
  split_documents split
    (get_smart_text_splitter (convert_extracted_data_to_content extracted_data)) documents

/-- A splitting behaviour that records which configuration it was handed:
used to exhibit which strategy a call path selects. -/
def probeSplit : Splitter :=
  fun cfg _ => [if cfg.chunk_size = 600 then "entry" else "document"]

/-- Seven one-cell rows: content with 7 short lines, for which the smart
selection picks the entry strategy. -/
def sevenShortRows : List Row := List.replicate 7 [Cell.str "a"]

end DocumentUtils

/-! ## PDF processing (`pdf_processor.py`) and the Excel entry point
(`excel_processer.py:23-30`)

`convert_pdf_to_excel` (tabula) and `openpyxl.load_workbook` are external
capabilities: the first is modelled by a boolean (did the conversion
produce an Excel file), the second by an `Except` (the workbook, or the
exception text).  Both are supplied per file by the caller's model. -/

namespace PdfProcessor

/-- `PDFProcessor.process_single_pdf` (`pdf_processor.py:78-113`): convert
the PDF (external), then load the produced workbook and run the shared
marker extraction; every failure is caught and reported as
`(False, None)`, with `None` data modelled as `[]`. -/
def process_single_pdf (conv : Bool) (load : Except String Workbook) :
    Bool × List Row :=
  if !conv then (false, [])
  else
    match load with
    | .error _ => (false, [])
    | .ok wb => (true, DocumentUtils.extract_info_from_excel wb)

end PdfProcessor

namespace ExcelProcesser

/-- `process_excel_to_documents` (`excel_processer.py:23-30`), after the
workbook has been loaded (`load_workbook`'s fallibility stays with the
caller): extract rows past the marker, then build sheet documents. -/
def process_excel_to_documents (split : DocumentUtils.Splitter) (wb : Workbook)
    (filename : String) : List DocumentUtils.Document :=
  DocumentUtils.create_documents_from_excel_sheets split
    (DocumentUtils.extract_info_from_excel wb) filename

end ExcelProcesser

/-! ## Ingestion orchestrator (`routers/upload.py:141-237`)

A discovered file is its basename plus the behaviour of the external
calls made for it: for a `.pdf` file the conversion/load behaviour of
`process_single_pdf`, for an `.xlsx`/`.xls` file the `load_workbook`
behaviour; both carry the behaviour of the `add_documents` call
(embedding/upsert), which may raise.  The `FileBehavior` constructor
models the extension dispatch of `upload.py:166`. -/

namespace Upload

/-- `FileProcessingResult` (`models/schemas.py`). -/
structure FileProcessingResult where
  filename : String
  success : Bool
  documents_processed : Nat
  error_message : Option String
  file_type : String
deriving DecidableEq

/-- `FolderUploadResponse` (`models/schemas.py`); `processing_summary` is
the two-key dict `{'pdf': _, 'excel': _}`. -/
structure FolderUploadResponse where
  message : String
  total_files_processed : Nat
  successful_files : Nat
  failed_files : Nat
  total_documents_processed : Nat
  file_results : List FileProcessingResult
  processing_summary_pdf : Nat
  processing_summary_excel : Nat

inductive FileBehavior where
  | pdf (conv : Bool) (load : Except String Workbook) (add : Except String Unit)
  | excel (load : Except String Workbook) (add : Except String Unit)

structure FolderFile where
  filename : String
  behavior : FileBehavior

/-- The per-file try-block of `process_folder_files` (`upload.py:168-227`):
the produced `FileProcessingResult` and the number of documents added to
the vector store.  An `.error` behaviour of an external call lands in the
`except` clause, which records the exception text in that file's result. -/
def fileOutcome (split : DocumentUtils.Splitter) (f : FolderFile) :
    FileProcessingResult × Nat :=
  match f.behavior with
  | .pdf conv load add =>
    match PdfProcessor.process_single_pdf conv load with
    | (success, extracted_data) =>
      if success && !extracted_data.isEmpty then
        let documents := DocumentUtils.create_documents_from_extracted_data split
          extracted_data f.filename "pdf_extraction" [("original_format", "pdf")]
        match add with
        | .ok _ => (⟨f.filename, true, documents.length, none, "pdf"⟩, documents.length)
        | .error e => (⟨f.filename, false, 0, some e, "pdf"⟩, 0)
      else (⟨f.filename, false, 0, some "Failed to extract data from PDF", "pdf"⟩, 0)
  | .excel load add =>
    match load with
    | .error e => (⟨f.filename, false, 0, some e, "excel"⟩, 0)
    | .ok wb =>
      let documents : List DocumentUtils.Document :=
        ExcelProcesser.process_excel_to_documents split wb f.filename
      match add with
      | .ok _ => (⟨f.filename, true, documents.length, none, "excel"⟩, documents.length)
      | .error e => (⟨f.filename, false, 0, some e, "excel"⟩, 0)

/-- Accumulator state of the `for file_path in all_files` loop. -/
structure BatchAcc where
  file_results : List FileProcessingResult
  total_documents : Nat
  successful_files : Nat
  failed_files : Nat
  summary_pdf : Nat
  summary_excel : Nat

/-- One iteration of the loop: append the file's result and bump the
counter matching its branch (`upload.py:183-227`). -/
def stepFile (split : DocumentUtils.Splitter) (acc : BatchAcc) (f : FolderFile) :
    BatchAcc :=
  let r := fileOutcome split f
  { file_results := acc.file_results ++ [r.1]
    total_documents := acc.total_documents + r.2
    successful_files := acc.successful_files + (if r.1.success then 1 else 0)
    failed_files := acc.failed_files + (if r.1.success then 0 else 1)
    summary_pdf := acc.summary_pdf + (if r.1.success && r.1.file_type == "pdf" then 1 else 0)
    summary_excel := acc.summary_excel + (if r.1.success && r.1.file_type == "excel" then 1 else 0) }

/-- `if max_files: all_files = all_files[:max_files]` (`upload.py:160-161`);
`max_files = 0` is falsy in Python, so it does not truncate. -/
def pythonTake (max_files : Option Nat) (files : List FolderFile) : List FolderFile :=
  match max_files with
  | none => files
  | some m => if m = 0 then files else files.take m

/-- `process_folder_files` (`upload.py:141-237`), over the discovered
supported files in walk order. -/
def process_folder_files (split : DocumentUtils.Splitter) (max_files : Option Nat)
    (files : List FolderFile) : FolderUploadResponse :=
  let all_files := pythonTake max_files files
  let acc := all_files.foldl (stepFile split) ⟨[], 0, 0, 0, 0, 0⟩
  { message := "Processed " ++ toString all_files.length ++ " files: "
      ++ toString acc.successful_files ++ " successful, "
      ++ toString acc.failed_files ++ " failed"
    total_files_processed := all_files.length
    successful_files := acc.successful_files
    failed_files := acc.failed_files
    total_documents_processed := acc.total_documents
    file_results := acc.file_results
    processing_summary_pdf := acc.summary_pdf
    processing_summary_excel := acc.summary_excel }

/-- A trivial external splitting behaviour (one chunk per document), for
concrete evaluations. -/
def idSplit : DocumentUtils.Splitter := fun _ c => [c]

/-- A workbook none of whose cells contains the marker: extraction yields
zero rows. -/
def noMarkerWorkbook : Workbook := [[[Cell.str "hello"]]]

end Upload

/-! ## Mixed-folder ingestion (`excel_processer.py:32-102`)

A folder listing (`os.listdir`) is a sequence of entries; the `.pdf`
versus `.xlsx`/`.xls` extension dispatch is modelled by the entry's
constructor.  `genName` models the uuid4-prefixed stored filename of
`excel_processer.py:51`. -/

namespace ExcelProcesser

inductive MixEntry where
  | pdf (filename : String) (conv : Bool) (load : Except String Workbook)
  | xl (filename : String) (load : Except String Workbook)

/-- Python truthiness of an optional integer: `None` and `0` are falsy. -/
def optTruthy : Option Nat → Bool
  | none => false
  | some m => m ≠ 0

/-- The loop of `PDFProcessor.process_pdf_folder` (`pdf_processor.py:144-164`),
carrying `processed_count`: the `if max_files and processed_count >= max_files`
break check runs for every listed entry; only `.pdf` entries are processed
and counted, and only successful non-empty extractions are collected. -/
def process_pdf_folder_aux (max_files : Option Nat) :
    Nat → List MixEntry → List (String × List Row)
  | _, [] => []
  | processed_count, e :: rest =>
    if optTruthy max_files && decide (max_files.getD 0 ≤ processed_count) then []
    else
      match e with
      | .pdf fn conv load =>
        match PdfProcessor.process_single_pdf conv load with
        | (success, extracted_data) =>
          if success && !extracted_data.isEmpty then
            (fn, extracted_data) :: process_pdf_folder_aux max_files (processed_count + 1) rest
          else process_pdf_folder_aux max_files (processed_count + 1) rest
      | .xl _ _ => process_pdf_folder_aux max_files processed_count rest

/-- `PDFProcessor.process_pdf_folder` (`pdf_processor.py:115-169`). -/
def process_pdf_folder (max_files : Option Nat) (entries : List MixEntry) :
    List (String × List Row) :=
  process_pdf_folder_aux max_files 0 entries

/-- `process_pdf_folder_to_documents` (`excel_processer.py:32-63`): for each
collected `(filename, extracted_data)` with non-empty data, build chunk
documents with source `"pdf_extraction"` and the stored `pdf_path`. -/
def process_pdf_folder_to_documents (split : DocumentUtils.Splitter)
    (genName : String → String) (max_files : Option Nat) (entries : List MixEntry) :
    List DocumentUtils.Document :=
  (process_pdf_folder max_files entries).flatMap fun fe =>
    if !fe.2.isEmpty then
      DocumentUtils.create_documents_from_extracted_data split fe.2 fe.1 "pdf_extraction"
        [("original_format", "pdf"), ("pdf_path", genName fe.1)]
    else []

/-- The Excel loop of `process_mixed_folder_to_documents`
(`excel_processer.py:89-100`), carrying `excel_count`: the
`if remaining_files and excel_count >= remaining_files` break check runs
for every listed entry; a failing Excel file is caught (printed) and not
counted. -/
def excelLoopAux (split : DocumentUtils.Splitter) (remaining_files : Option Nat) :
    Nat → List MixEntry → List DocumentUtils.Document
  | _, [] => []
  | excel_count, e :: rest =>
    if optTruthy remaining_files && decide (remaining_files.getD 0 ≤ excel_count) then []
    else
      match e with
      | .xl fn load =>
        match load with
        | .ok wb =>
          process_excel_to_documents split wb fn
            ++ excelLoopAux split remaining_files (excel_count + 1) rest
        | .error _ => excelLoopAux split remaining_files excel_count rest
      | .pdf _ _ _ => excelLoopAux split remaining_files excel_count rest

/-- `process_mixed_folder_to_documents` (`excel_processer.py:65-102`):
PDF phase first; `processed_count` is the number of produced documents
whose metadata source is `"pdf_extraction"`; the Excel phase runs only
when `not max_files or processed_count < max_files`, with
`remaining_files = max_files - processed_count if max_files else None`. -/
def process_mixed_folder_to_documents (split : DocumentUtils.Splitter)
    (genName : String → String) (max_files : Option Nat) (entries : List MixEntry) :
    List DocumentUtils.Document :=
  let pdf_docs := process_pdf_folder_to_documents split genName max_files entries
  let processed_count :=
    (pdf_docs.filter (fun d => d.metadata.source == "pdf_extraction")).length
  let excel_docs :=
    if !optTruthy max_files || decide (processed_count < max_files.getD 0) then
      let remaining_files : Option Nat :=
        if optTruthy max_files then some (max_files.getD 0 - processed_count) else none
      excelLoopAux split remaining_files 0 entries
    else []
  pdf_docs ++ excel_docs

/-- A workbook whose first row carries the marker and whose second row is
one data cell: extraction yields one row. -/
def markerWorkbook : Workbook := [[[Cell.str "additional notes:"], [Cell.str "x"]]]

/-- An external splitting behaviour producing two chunks per document. -/
def twoSplit : DocumentUtils.Splitter := fun _ c => [c, c]

/-- A folder with one PDF (yielding two chunk documents under `twoSplit`)
followed by one Excel file. -/
def demoFolder : List MixEntry :=
  [.pdf "a.pdf" true (.ok markerWorkbook), .xl "b.xlsx" (.ok markerWorkbook)]

end ExcelProcesser

/-! ## RAG answering pipeline (`services/chat_service.py`)

The LLM (`self.llm.ainvoke`) and the QA chain (`self.qa_chain.invoke`,
which performs retrieval and synthesis) are external capabilities,
modelled as functions returning `Except`: `.error` is a raised exception.
`qa_chain` is `Option`al: `None` models the not-ready state in which
`_setup_qa_chain` found no retriever (`vector_store.py:103-107` returns
`None` when the vector store failed to initialize). -/

namespace ChatService

/-- A retrieved source document's metadata, as `get_answer` reads it:
`doc.metadata.get("filename", "Unknown")` and `doc.metadata.get("pdf_path")`. -/
structure RetrievedDoc where
  filename : Option String
  pdf_path : Option String
deriving DecidableEq

/-- The dict returned by `qa_chain.invoke`: `result.get("result", ...)`
and the optional `"source_documents"` key. -/
structure QAOutput where
  result : Option String
  source_documents : Option (List RetrievedDoc)

/-- One entry of the `sources` list (`chat_service.py:111-114`). -/
structure SourceEntry where
  filename : String
  pdf_path : Option String
deriving DecidableEq

/-- The dict returned by `get_answer`. -/
structure AnswerResult where
  answer : String
  sources : List SourceEntry
  enhanced_question : Option String
deriving DecidableEq

/-- `self.enhancement_template.format(question=question)`
(`chat_service.py:17-32,73`): the fixed rewriting instruction around the
original question. -/
def enhancement_prompt (question : String) : String :=
  String.intercalate "\n"
    ["", "            You are an expert at refining and expanding user queries for better information retrieval.",
     "", "            Your task:",
     "            1. Correct any grammatical issues.",
     "            2. Clarify vague or ambiguous wording while keeping the original intent.",
     "            3. Expand the query by including:",
     "            - Key terminology and relevant definitions.",
     "            - Common synonyms or alternate phrases used for the same concept.",
     "            - Related entities, domains, or contexts that could improve recall.",
     "            4. Ensure the result is concise, natural-sounding, and optimized for semantic retrieval systems (e.g., vector search).",
     "", "            Output only the enhanced query.", "",
     "            Original question: "]
    ++ question ++ "\n            "

/-- `ChatService.enhance_question` (`chat_service.py:69-84`): the whole
body is a try-block; any failure of the LLM call falls back to the
original question. -/
def enhance_question (llm : String → Except String String) (question : String) : String :=
  match llm (enhancement_prompt question) with
  | .ok enhanced => enhanced
  | .error _ => question

/-- The filename under which a retrieved document is attributed:
`doc.metadata.get("filename", "Unknown")`. -/
def nameOf (d : RetrievedDoc) : String := d.filename.getD "Unknown"

/-- The source-assembly loop of `get_answer` (`chat_service.py:104-115`),
carrying the `seen_files` set. -/
def extractSourcesAux (seen : List String) : List RetrievedDoc → List SourceEntry
  | [] => []
  | doc :: rest =>
    let filename := nameOf doc
    if seen.contains filename then extractSourcesAux seen rest
    else ⟨filename, doc.pdf_path⟩ :: extractSourcesAux (filename :: seen) rest

def extract_sources (docs : List RetrievedDoc) : List SourceEntry :=
  extractSourcesAux [] docs

/-- `ChatService.get_answer` (`chat_service.py:86-128`). -/
def get_answer (llm : String → Except String String)
    (qa_chain : Option (String → Except String QAOutput))
    (question : String) : AnswerResult :=
  match qa_chain with
  | none => ⟨"The system is not ready. Please try again later.", [], none⟩
  | some chain =>
    let enhanced := enhance_question llm question
    match chain enhanced with
    | .error _ =>
      ⟨"Sorry, I encountered an error while processing your request.", [], none⟩
    | .ok result =>
      let sources :=
        match result.source_documents with
        | none => []
        | some docs => extract_sources docs
      ⟨result.result.getD "I couldn\x27t find a good answer.", sources, some enhanced⟩

/-- From the claim's words (C7): keep the first occurrence of each
filename, in first-seen order. -/
def dedupFirst : List String → List String
  | [] => []
  | n :: rest => n :: dedupFirst (rest.filter fun x => x ≠ n)
termination_by l => l.length
decreasing_by simp_wf; exact Nat.lt_succ_of_le (List.length_filter_le _ _)

/-- Retrieval order with a duplicated filename and a document with no
filename metadata. -/
def demoDocs : List RetrievedDoc :=
  [⟨some "a.pdf", some "p1"⟩, ⟨some "a.pdf", none⟩, ⟨none, none⟩]

/-- An LLM whose every call raises. -/
def failLLM : String → Except String String := fun _ => .error "boom"

/-- A QA chain whose every invocation raises. -/
def failChain : String → Except String QAOutput := fun _ => .error "down"

end ChatService

/-! ## Vector index manager (`services/vector_store.py`)

The Qdrant client state visible to `_ensure_collection_exists` is the
list of collection names `client.get_collections()` reports;
`client.create_collection` adds a collection with the given name.  With
the client reachable (the situation the claim describes), neither branch
raises. -/

namespace VectorStore

/-- The collection name (`vector_store.py:37`). -/
def collection_name : String := "building_logs"

/-- `client.create_collection(collection_name=name, ...)`: a new
collection with that name appears in the listing. -/
def create_collection (collections : List String) (name : String) : List String :=
  collections ++ [name]

/-- `_ensure_collection_exists` (`vector_store.py:72-96`): create only
when the name is absent from `collection_names`, otherwise only log. -/
def ensure_collection_exists (name : String) (collections : List String) :
    List String :=
  if name ∉ collections then create_collection collections name
  else collections

end VectorStore

end BMAI

namespace BMAI
namespace DocumentUtils

lemma extractRowsAux_true (rs : List Row) :
    extractRowsAux true rs = rs.filterMap keepRow := by
  induction rs with
  | nil => rfl
  | cons r rs ih =>
    simp only [extractRowsAux, keepRow, List.filterMap_cons]
    by_cases h : (filterRow r).isEmpty
    · simp [h, ih]
    · simp [h, ih]

lemma extractRowsAux_false (rs : List Row) :
    extractRowsAux false rs = (rowsAfterTrigger rs).filterMap keepRow := by
  induction rs with
  | nil => rfl
  | cons r rs ih =>
    simp only [extractRowsAux, rowsAfterTrigger]
    by_cases h : rowTriggers r
    · simp [h, extractRowsAux_true]
    · simp [h, ih]

/-- C1: `extract_info_from_excel` implements the per-sheet marker scan:
capturing starts off per sheet; a row turns it on when one of its text
cells, lowercased, contains `"additional notes:"` (case-insensitively, so
`"Additional Notes:"` triggers); the trigger row is not emitted; each
strictly later row is emitted with nulls dropped, empty-after-filter rows
skipped; a trigger-free sheet contributes nothing; sheets concatenate in
workbook order. -/
theorem extract_info_from_excel_correct (wb : Workbook) :
    extract_info_from_excel wb = markerScanSpec wb ∧
    cellTriggers (Cell.str "Additional Notes:") = true := by
  constructor
  · unfold extract_info_from_excel markerScanSpec
    simp [extractRowsAux_false]
  · decide

lemma get_smart_eq_ite (content : String) :
    get_smart_text_splitter content =
      if 5 < (pySplitLines content).length ∧
          (((pySplitLines content).map List.length).sum : ℚ)
            / ((pySplitLines content).length : ℚ) < 150 then
        get_entry_based_text_splitter
      else get_default_text_splitter := by
  simp only [get_smart_text_splitter]
  by_cases h : (pySplitLines content).isEmpty
  · have hl : (pySplitLines content).length = 0 := by
      cases he : pySplitLines content with
      | nil => rfl
      | cons a l => rw [he] at h; simp [List.isEmpty] at h
    simp [h, hl]
  · simp [h]

/-- C5: `get_smart_text_splitter` returns the entry splitter (600/50) iff
the content, split on newline, has more than 5 lines and mean line length
below 150 characters; otherwise it returns the default splitter
(1000/200).  Determinism is immediate: the selection is a pure function of
the content. -/
theorem get_smart_text_splitter_selection (content : String) :
    (get_smart_text_splitter content = get_entry_based_text_splitter ↔
      5 < (pySplitLines content).length ∧
        (((pySplitLines content).map List.length).sum : ℚ)
          / ((pySplitLines content).length : ℚ) < 150) ∧
    (¬(5 < (pySplitLines content).length ∧
        (((pySplitLines content).map List.length).sum : ℚ)
          / ((pySplitLines content).length : ℚ) < 150) →
      get_smart_text_splitter content = get_default_text_splitter) := by
  rw [get_smart_eq_ite]
  by_cases hc : 5 < (pySplitLines content).length ∧
      (((pySplitLines content).map List.length).sum : ℚ)
        / ((pySplitLines content).length : ℚ) < 150
  · rw [if_pos hc]
    exact ⟨⟨fun _ => hc, fun _ => rfl⟩, fun h => absurd hc h⟩
  · rw [if_neg hc]
    exact ⟨⟨fun h => absurd h.symm (by decide), fun h => absurd h hc⟩, fun _ => rfl⟩

/-- C5 witness: on a one-line content the default splitter is selected,
and on six short lines the entry splitter is selected. -/
theorem get_smart_text_splitter_selection_witness :
    get_smart_text_splitter "a" = get_default_text_splitter ∧
    get_smart_text_splitter "a\nb\nc\nd\ne\nf" = get_entry_based_text_splitter := by
  refine ⟨(get_smart_text_splitter_selection "a").2 (fun h => absurd h.1 (by decide)),
    (get_smart_text_splitter_selection "a\nb\nc\nd\ne\nf").1.mpr ⟨by decide, ?_⟩⟩
  have h1 : (List.map List.length (pySplitLines "a\nb\nc\nd\ne\nf")).sum = 6 := rfl
  have h2 : (pySplitLines "a\nb\nc\nd\ne\nf").length = 6 := rfl
  rw [h1, h2]
  norm_num

/-- C4 counterexample: on content with seven short lines (for which the
content-driven selection picks the entry strategy), the Excel-workbook
path `create_documents_from_excel_sheets` still chunks with the default
(1000/200) configuration: it differs from the same path with
content-driven selection.  The claim that every ingestion path selects
the strategy from the content's own statistics is therefore false. -/
theorem excel_sheets_ignores_content_statistics :
    create_documents_from_excel_sheets probeSplit sevenShortRows "log.xlsx"
      ≠ create_documents_from_excel_sheets_smart probeSplit sevenShortRows "log.xlsx" := by
  have hsmart : get_smart_text_splitter (convert_extracted_data_to_content sevenShortRows)
      = get_entry_based_text_splitter := by
    rw [get_smart_eq_ite, if_pos]
    refine ⟨by decide, ?_⟩
    have h1 : (List.map List.length
        (pySplitLines (convert_extracted_data_to_content sevenShortRows))).sum = 7 := rfl
    have h2 : (pySplitLines (convert_extracted_data_to_content sevenShortRows)).length = 7 := rfl
    rw [h1, h2]
    norm_num
  simp only [create_documents_from_excel_sheets, create_documents_from_excel_sheets_smart, hsmart]
  simp [split_documents, probeSplit, sevenShortRows,
    get_entry_based_text_splitter, get_default_text_splitter]

/-- C4 amended: strategy selection is content-driven and re-evaluated per
document on the extracted-data path (`create_documents_from_extracted_data`),
but the Excel-workbook path (`create_documents_from_excel_sheets`) always
chunks with the fixed default (1000/200) configuration, independently of
the content. -/
theorem chunking_strategy_by_path (split : Splitter) (extracted_data : List Row)
    (filename source : String) (extra : List (String × String)) :
    create_documents_from_extracted_data split extracted_data filename source extra
      = split_documents split
          (get_smart_text_splitter (convert_extracted_data_to_content extracted_data))
          (if extracted_data.isEmpty then []
           else [create_document_from_content
                  (convert_extracted_data_to_content extracted_data) filename source extra]) ∧
    create_documents_from_excel_sheets split extracted_data filename
      = split_documents split get_default_text_splitter
          (if extracted_data.isEmpty then []
           else [Document.mk (convert_extracted_data_to_content extracted_data)
                  ⟨filename, "excel_extraction", []⟩]) := by
  constructor
  · by_cases h : extracted_data.isEmpty <;>
      simp [create_documents_from_extracted_data, h, split_documents]
  · rfl

end DocumentUtils

namespace Upload

lemma fileOutcome_filename (split : DocumentUtils.Splitter) (f : FolderFile) :
    (fileOutcome split f).1.filename = f.filename := by
  obtain ⟨filename, behavior⟩ := f
  cases behavior with
  | pdf conv load add =>
    simp only [fileOutcome]
    rcases PdfProcessor.process_single_pdf conv load with ⟨success, data⟩
    by_cases h : success && !data.isEmpty
    · cases add <;> simp [h]
    · simp [h]
  | excel load add =>
    cases load <;> cases add <;> simp [fileOutcome]

lemma foldl_stepFile (split : DocumentUtils.Splitter) (files : List FolderFile) :
    ∀ acc : BatchAcc,
    (files.foldl (stepFile split) acc).file_results
        = acc.file_results ++ files.map (fun f => (fileOutcome split f).1) ∧
    (files.foldl (stepFile split) acc).successful_files
        = acc.successful_files
            + (files.filter (fun f => (fileOutcome split f).1.success)).length ∧
    (files.foldl (stepFile split) acc).failed_files
        = acc.failed_files
            + (files.filter (fun f => !(fileOutcome split f).1.success)).length := by
  induction files with
  | nil => intro acc; simp
  | cons f fs ih =>
    intro acc
    simp only [List.foldl_cons, List.map_cons, List.filter_cons]
    obtain ⟨h1, h2, h3⟩ := ih (stepFile split acc f)
    refine ⟨?_, ?_, ?_⟩
    · rw [h1]; simp [stepFile]
    · rw [h2]
      by_cases hs : (fileOutcome split f).1.success <;>
        first
        | (simp [stepFile, hs]; omega)
        | simp [stepFile, hs]
    · rw [h3]
      by_cases hs : (fileOutcome split f).1.success <;>
        first
        | (simp [stepFile, hs]; omega)
        | simp [stepFile, hs]

lemma length_filter_split {α : Type} (l : List α) (p : α → Bool) :
    (l.filter p).length + (l.filter (fun a => !(p a))).length = l.length := by
  induction l with
  | nil => rfl
  | cons a l ih => by_cases h : p a <;> simp [List.filter_cons, h] <;> omega

lemma process_folder_files_results (split : DocumentUtils.Splitter)
    (max_files : Option Nat) (files : List FolderFile) :
    (process_folder_files split max_files files).file_results
      = (pythonTake max_files files).map (fun f => (fileOutcome split f).1) := by
  simp only [process_folder_files]
  exact (foldl_stepFile split (pythonTake max_files files) ⟨[], 0, 0, 0, 0, 0⟩).1

/-- C2: for a batch of N discovered supported files of which M fail, the
report's `file_results` has exactly one entry per file in processing
order, `failed_files` is the number of failing files, and
`successful_files` is N - M; a per-file exception (an `.error` behaviour
of any external call) is recorded in that file's result and never removes
later files from the report. -/
theorem process_folder_files_report (split : DocumentUtils.Splitter)
    (max_files : Option Nat) (files : List FolderFile) :
    (process_folder_files split max_files files).file_results.map (fun r => r.filename)
        = (pythonTake max_files files).map (fun f => f.filename) ∧
    (process_folder_files split max_files files).failed_files
        = ((process_folder_files split max_files files).file_results.filter
            (fun r => !r.success)).length ∧
    (process_folder_files split max_files files).successful_files
        = ((process_folder_files split max_files files).file_results.filter
            (fun r => r.success)).length ∧
    (process_folder_files split max_files files).successful_files
        + (process_folder_files split max_files files).failed_files
        = (pythonTake max_files files).length ∧
    (process_folder_files split max_files files).total_files_processed
        = (pythonTake max_files files).length := by
  obtain ⟨h1, h2, h3⟩ := foldl_stepFile split (pythonTake max_files files) ⟨[], 0, 0, 0, 0, 0⟩
  have hres := process_folder_files_results split max_files files
  refine ⟨?_, ?_, ?_, ?_, ?_⟩
  · rw [hres, List.map_map]
    exact List.map_congr_left fun f _ => fileOutcome_filename split f
  · rw [hres, List.filter_map, List.length_map]
    simp only [process_folder_files, h3, Function.comp_def]
    omega
  · rw [hres, List.filter_map, List.length_map]
    simp only [process_folder_files, h2, Function.comp_def]
    omega
  · simp only [process_folder_files, h2, h3]
    simpa using length_filter_split (pythonTake max_files files)
      (fun f => (fileOutcome split f).1.success)
  · rfl

/-- C3 counterexample: an Excel file whose extraction yields zero rows
(no marker in the workbook) is recorded with `success = True`,
`documents_processed = 0` and no error message — not as a failure as the
claim requires. -/
theorem excel_zero_rows_recorded_success :
    (process_folder_files idSplit none
        [⟨"log.xlsx", .excel (.ok noMarkerWorkbook) (.ok ())⟩]).file_results
      = [⟨"log.xlsx", true, 0, none, "excel"⟩] := rfl

/-- C3 amended: in `process_folder_files`, a PDF file whose extraction
yields zero rows is recorded as a failure with the message
"Failed to extract data from PDF"; an Excel file whose extraction yields
zero rows is recorded as a success with `documents_processed = 0` —
zero-row-means-failure holds only on the PDF branch, not the Excel
branch. -/
theorem zero_row_recording (split : DocumentUtils.Splitter)
    (pre post : List FolderFile) (fn : String) (conv : Bool)
    (load : Except String Workbook) (add : Except String Unit) (wb : Workbook)
    (hpdf : (PdfProcessor.process_single_pdf conv load).2 = [])
    (hwb : DocumentUtils.extract_info_from_excel wb = []) :
    (process_folder_files split none
        (pre ++ ⟨fn, .pdf conv load add⟩ :: post)).file_results[pre.length]?
      = some ⟨fn, false, 0, some "Failed to extract data from PDF", "pdf"⟩ ∧
    (process_folder_files split none
        (pre ++ ⟨fn, .excel (.ok wb) (.ok ())⟩ :: post)).file_results[pre.length]?
      = some ⟨fn, true, 0, none, "excel"⟩ := by
  have hmid : ∀ (f : FolderFile) (g : FolderFile → FileProcessingResult),
      ((pre ++ f :: post).map g)[pre.length]? = some (g f) := by
    intro f g
    rw [List.getElem?_map, List.getElem?_append_right (Nat.le_refl _)]
    simp
  constructor
  · rw [process_folder_files_results, pythonTake, hmid]
    obtain ⟨s, hs⟩ : ∃ s, PdfProcessor.process_single_pdf conv load = (s, []) :=
      ⟨(PdfProcessor.process_single_pdf conv load).1, by
        rw [← hpdf]⟩
    simp [fileOutcome, hs]
  · rw [process_folder_files_results, pythonTake, hmid]
    simp [fileOutcome, ExcelProcesser.process_excel_to_documents, hwb,
      DocumentUtils.create_documents_from_excel_sheets, DocumentUtils.split_documents]

/-- C3 amended witness: the recording at a concrete zero-row PDF file and
a concrete zero-row Excel file. -/
theorem zero_row_recording_witness :
    (process_folder_files idSplit none
        [⟨"a.pdf", .pdf true (.ok noMarkerWorkbook) (.ok ())⟩]).file_results[0]?
      = some ⟨"a.pdf", false, 0, some "Failed to extract data from PDF", "pdf"⟩ ∧
    (process_folder_files idSplit none
        [⟨"log2.xlsx", .excel (.ok noMarkerWorkbook) (.ok ())⟩]).file_results[0]?
      = some ⟨"log2.xlsx", true, 0, none, "excel"⟩ :=
  ⟨(zero_row_recording idSplit [] [] "a.pdf" true (.ok noMarkerWorkbook) (.ok ())
      noMarkerWorkbook rfl rfl).1,
   (zero_row_recording idSplit [] [] "log2.xlsx" true (.ok noMarkerWorkbook) (.ok ())
      noMarkerWorkbook rfl rfl).2⟩

end Upload

namespace ChatService

/-- C6: with no initialized QA chain (no usable retrieval path),
`get_answer` returns the fixed not-ready answer with an empty sources
list; the embedding is a total function, so no exception escapes. -/
theorem get_answer_not_ready (llm : String → Except String String) (question : String) :
    get_answer llm none question
      = ⟨"The system is not ready. Please try again later.", [], none⟩ := rfl

lemma mem_dedupFirst (l : List String) (x : String) :
    x ∈ dedupFirst l ↔ x ∈ l := by
  induction l using dedupFirst.induct with
  | case1 => simp [dedupFirst]
  | case2 n rest ih =>
    rw [dedupFirst]
    simp only [List.mem_cons, ih, List.mem_filter, decide_eq_true_eq]
    by_cases hx : x = n <;> simp [hx]

lemma nodup_dedupFirst (l : List String) : (dedupFirst l).Nodup := by
  induction l using dedupFirst.induct with
  | case1 => simp [dedupFirst]
  | case2 n rest ih =>
    rw [dedupFirst]
    refine List.Nodup.cons (fun hmem => ?_) ih
    rw [mem_dedupFirst, List.mem_filter] at hmem
    simp at hmem

lemma extractSourcesAux_names (docs : List RetrievedDoc) : ∀ (seen : List String),
    (extractSourcesAux seen docs).map (fun s => s.filename)
      = dedupFirst ((docs.map nameOf).filter fun x => !seen.contains x) := by
  induction docs with
  | nil => intro seen; simp [extractSourcesAux, dedupFirst]
  | cons d rest ih =>
    intro seen
    simp only [extractSourcesAux, List.map_cons, List.filter_cons]
    by_cases h : seen.contains (nameOf d)
    · rw [if_pos h]
      have hn : (!seen.contains (nameOf d)) = false := by rw [h]; rfl
      rw [hn]
      simp only [Bool.false_eq_true, if_false]
      exact ih seen
    · rw [if_neg h]
      have hf : seen.contains (nameOf d) = false := Bool.eq_false_iff.mpr h
      have hn : (!seen.contains (nameOf d)) = true := by rw [hf]; rfl
      rw [hn]
      simp only [if_true, List.map_cons]
      rw [dedupFirst, ih (nameOf d :: seen), List.filter_filter]
      have hpred : ∀ x : String,
          (!(nameOf d :: seen).contains x) = (decide (x ≠ nameOf d) && !seen.contains x) := by
        intro x
        by_cases hx : x = nameOf d
        · simp [hx, List.contains_cons]
        · by_cases hc : seen.contains x <;> simp [List.contains_cons, hx, hc]
      refine congrArg (fun l => nameOf d :: dedupFirst l) ?_
      exact List.filter_congr fun x _ => hpred x

lemma extractSourcesAux_find (docs : List RetrievedDoc) :
    ∀ (seen : List String) (s : SourceEntry), s ∈ extractSourcesAux seen docs →
      seen.contains s.filename = false ∧
      ∃ d, docs.find? (fun x => nameOf x == s.filename) = some d
            ∧ s = ⟨nameOf d, d.pdf_path⟩ := by
  induction docs with
  | nil => intro seen s hs; simp [extractSourcesAux] at hs
  | cons d rest ih =>
    intro seen s hs
    simp only [extractSourcesAux] at hs
    by_cases h : seen.contains (nameOf d)
    · rw [if_pos h] at hs
      obtain ⟨h1, dd, h2, h3⟩ := ih seen s hs
      have hne : (nameOf d == s.filename) = false := by
        rw [beq_eq_false_iff_ne]
        intro heq
        rw [← heq] at h1
        rw [h1] at h
        exact Bool.false_ne_true h
      refine ⟨h1, dd, ?_, h3⟩
      rw [List.find?_cons, hne]
      exact h2
    · rw [if_neg h] at hs
      rcases List.mem_cons.mp hs with rfl | hmem
      · refine ⟨by simpa using h, d, ?_, rfl⟩
        rw [List.find?_cons]
        simp
      · obtain ⟨h1, dd, h2, h3⟩ := ih (nameOf d :: seen) s hmem
        rw [List.contains_cons, Bool.or_eq_false_iff] at h1
        refine ⟨h1.2, dd, ?_, h3⟩
        have hne : (nameOf d == s.filename) = false := by
          rw [beq_eq_false_iff_ne]
          intro heq
          have := h1.1
          rw [heq] at this
          simp at this
        rw [List.find?_cons, hne]
        exact h2

/-- C7: the sources list assembled by `get_answer` carries exactly one
entry per distinct filename, in first-seen retrieval order, each entry
built from that filename's first occurrence; no two entries share a
filename. -/
theorem get_answer_sources_dedup (docs : List RetrievedDoc) :
    (extract_sources docs).map (fun s => s.filename) = dedupFirst (docs.map nameOf) ∧
    ((extract_sources docs).map (fun s => s.filename)).Nodup ∧
    (∀ fn, fn ∈ (extract_sources docs).map (fun s => s.filename) ↔ fn ∈ docs.map nameOf) ∧
    (∀ s, s ∈ extract_sources docs →
      ∃ d, docs.find? (fun x => nameOf x == s.filename) = some d
            ∧ s = ⟨nameOf d, d.pdf_path⟩) := by
  have h1 : (extract_sources docs).map (fun s => s.filename)
      = dedupFirst (docs.map nameOf) := by
    rw [extract_sources, extractSourcesAux_names]
    refine congrArg dedupFirst ?_
    refine List.filter_eq_self.mpr fun x _ => ?_
    simp [List.contains]
  refine ⟨h1, ?_, ?_, ?_⟩
  · rw [h1]; exact nodup_dedupFirst _
  · intro fn; rw [h1, mem_dedupFirst, List.mem_map]
  · intro s hs
    exact (extractSourcesAux_find docs [] s hs).2

/-- C7 witness: on a concrete retrieval with a duplicated filename, the
emitted entry is the one built from the first occurrence. -/
theorem get_answer_sources_dedup_witness :
    ∃ d, demoDocs.find? (fun x => nameOf x == "a.pdf") = some d
      ∧ (⟨"a.pdf", some "p1"⟩ : SourceEntry) = ⟨nameOf d, d.pdf_path⟩ :=
  (get_answer_sources_dedup demoDocs).2.2.2 ⟨"a.pdf", some "p1"⟩ (List.Mem.head _)

/-- C8: generation failures are recovered locally — a failing rewrite
call makes `enhance_question` return the original question unmodified,
and a failing QA-chain invocation (retrieval or synthesis) makes
`get_answer` return the generic apologetic answer with an empty sources
list instead of propagating the exception. -/
theorem generation_failures_recovered (llm : String → Except String String)
    (chain : String → Except String QAOutput) (q e : String) :
    (llm (enhancement_prompt q) = .error e → enhance_question llm q = q) ∧
    (chain (enhance_question llm q) = .error e →
      get_answer llm (some chain) q
        = ⟨"Sorry, I encountered an error while processing your request.", [], none⟩) := by
  constructor
  · intro h; simp [enhance_question, h]
  · intro h; simp [get_answer, h]

/-- C8 witness: a concrete always-raising LLM and QA chain. -/
theorem generation_failures_recovered_witness :
    enhance_question failLLM "hi" = "hi" ∧
    get_answer failLLM (some failChain) "hi"
      = ⟨"Sorry, I encountered an error while processing your request.", [], none⟩ :=
  ⟨(generation_failures_recovered failLLM failChain "hi" "boom").1 rfl,
   (generation_failures_recovered failLLM failChain "hi" "down").2 rfl⟩

end ChatService

namespace VectorStore

/-- C9: collection provisioning is idempotent — when the named collection
already exists, `_ensure_collection_exists` leaves the collection list
unchanged (no create call, no error in the model, which is total); and
starting from any list holding the name at most once, running it twice
yields exactly one collection with that name. -/
theorem ensure_collection_exists_idempotent (name : String) (collections : List String) :
    (name ∈ collections → ensure_collection_exists name collections = collections) ∧
    (List.count name collections ≤ 1 →
      List.count name
        (ensure_collection_exists name (ensure_collection_exists name collections)) = 1) := by
  constructor
  · intro h; simp [ensure_collection_exists, h]
  · intro hle
    by_cases hm : name ∈ collections
    · have h1 : 0 < List.count name collections := List.count_pos_iff.mpr hm
      simp only [ensure_collection_exists, hm, not_true_eq_false, if_false]
      omega
    · have h0 : List.count name collections = 0 := by
        simpa using List.count_eq_zero.mpr hm
      have hmem2 : name ∈ create_collection collections name := by
        simp [create_collection]
      simp only [ensure_collection_exists, hm, not_false_eq_true, if_true,
        hmem2, not_true_eq_false, if_false]
      simp [create_collection, List.count_append, h0]

/-- C9 witness: provisioning against an existing `building_logs`
collection is a no-op, and provisioning twice from an empty index yields
exactly one `building_logs` collection. -/
theorem ensure_collection_exists_idempotent_witness :
    ensure_collection_exists collection_name [collection_name] = [collection_name] ∧
    List.count collection_name
      (ensure_collection_exists collection_name
        (ensure_collection_exists collection_name [])) = 1 :=
  ⟨(ensure_collection_exists_idempotent collection_name [collection_name]).1
      (List.Mem.head _),
   (ensure_collection_exists_idempotent collection_name []).2 (by decide)⟩

end VectorStore

namespace ExcelProcesser

lemma create_documents_source (split : DocumentUtils.Splitter) (data : List Row)
    (fn src : String) (extra : List (String × String)) :
    ∀ d ∈ DocumentUtils.create_documents_from_extracted_data split data fn src extra,
      d.metadata.source = src := by
  intro d hd
  by_cases h : data.isEmpty
  · simp [DocumentUtils.create_documents_from_extracted_data, h] at hd
  · simp only [DocumentUtils.create_documents_from_extracted_data, h,
      Bool.false_eq_true, if_false, DocumentUtils.split_documents,
      DocumentUtils.create_document_from_content, List.flatMap_cons,
      List.flatMap_nil, List.append_nil, List.mem_map] at hd
    obtain ⟨c, _, rfl⟩ := hd
    rfl

lemma pdf_docs_source (split : DocumentUtils.Splitter) (genName : String → String)
    (max_files : Option Nat) (entries : List MixEntry) :
    ∀ d ∈ process_pdf_folder_to_documents split genName max_files entries,
      d.metadata.source = "pdf_extraction" := by
  intro d hd
  simp only [process_pdf_folder_to_documents, List.mem_flatMap] at hd
  obtain ⟨fe, _, hd2⟩ := hd
  by_cases h : fe.2.isEmpty
  · simp [h] at hd2
  · rw [if_pos (by simp [h])] at hd2
    exact create_documents_source split fe.2 fe.1 "pdf_extraction" _ d hd2

lemma pdf_docs_filter (split : DocumentUtils.Splitter) (genName : String → String)
    (max_files : Option Nat) (entries : List MixEntry) :
    (process_pdf_folder_to_documents split genName max_files entries).filter
        (fun d => d.metadata.source == "pdf_extraction")
      = process_pdf_folder_to_documents split genName max_files entries :=
  List.filter_eq_self.mpr fun d hd => by
    simp [pdf_docs_source split genName max_files entries d hd]

/-- C10: in `process_mixed_folder_to_documents`, the quantity counted
against `max_files` in the PDF phase is the number of PDF-derived chunk
documents produced (all of which carry source `"pdf_extraction"`, so the
filter counts every one of them), not the number of PDF files; whenever
the PDF phase yields at least `max_files` chunks (for a positive cap),
the Excel phase is skipped and the output is exactly the PDF documents. -/
theorem mixed_folder_caps_on_chunks (split : DocumentUtils.Splitter)
    (genName : String → String) (entries : List MixEntry) (m : Nat) (hm : 0 < m)
    (hge : m ≤ (process_pdf_folder_to_documents split genName (some m) entries).length) :
    ((process_pdf_folder_to_documents split genName (some m) entries).filter
        (fun d => d.metadata.source == "pdf_extraction")).length
      = (process_pdf_folder_to_documents split genName (some m) entries).length ∧
    process_mixed_folder_to_documents split genName (some m) entries
      = process_pdf_folder_to_documents split genName (some m) entries := by
  have hfil := pdf_docs_filter split genName (some m) entries
  refine ⟨by rw [hfil], ?_⟩
  simp only [process_mixed_folder_to_documents]
  rw [hfil]
  have hcond : (!optTruthy (some m)
      || decide ((process_pdf_folder_to_documents split genName (some m) entries).length
          < (some m : Option Nat).getD 0)) = false := by
    have h1 : optTruthy (some m) = true := by
      simp only [optTruthy, decide_eq_true_eq]
      omega
    have h2 : decide ((process_pdf_folder_to_documents split genName (some m) entries).length
        < (some m : Option Nat).getD 0) = false := by
      simp only [Option.getD_some]
      exact decide_eq_false (Nat.not_lt.mpr hge)
    rw [h1, h2]
    rfl
  rw [hcond]
  simp

/-- C10 witness: one PDF file yielding two chunk documents with a cap of
two skips the Excel file even though only one PDF file was processed. -/
theorem mixed_folder_caps_on_chunks_witness : 0 < 2 ∧
    2 ≤ (process_pdf_folder_to_documents twoSplit (fun s => s) (some 2) demoFolder).length ∧
    process_mixed_folder_to_documents twoSplit (fun s => s) (some 2) demoFolder
      = process_pdf_folder_to_documents twoSplit (fun s => s) (some 2) demoFolder :=
  ⟨by decide, by decide,
   (mixed_folder_caps_on_chunks twoSplit (fun s => s) demoFolder 2 (by decide) (by decide)).2⟩

end ExcelProcesser

end BMAI
